import Mathlib

/-!
Verification of the BIND 9 client subsystem (bin/named/client.c) against its
natural-language specification.

The embedding below is a shallow translation of the client state machine and
client manager of client.c.  External collaborators (message codec, sockets,
dispatcher, memory pools, TCP message reader) are modelled by an oracle
structure that fixes the outcome of every external call made while handling
one event; given the oracle, every embedded function is deterministic and
executable.  Each function returns the updated client together with a trace
of observable events (render calls, scheduled sends, invocations of the
finalize operations), which is what the claims quantify over.
-/

namespace NsClient

/-- Result codes (isc_result_t / dns_result_t values used by client.c).
The constructor `failure n` stands for any other error code. -/
inductive IscResult where
  | success
  | nomemory
  | nospace
  | refused
  | notimp
  | formerr
  | timedout
  | failure (n : Nat)
deriving DecidableEq, Repr

/-- DNS response codes.  `dns_result_torcode` maps results onto these. -/
inductive Rcode where
  | noerror
  | formerr
  | servfail
  | notimp
  | refused
deriving DecidableEq, Repr

/-- Modelled from the spec: `dns_result_torcode` (lib/dns is not part of the
sources) maps a result code to the rcode carried by an error response; the
spec calls it "the mapping of result to rcode". -/
def dns_result_torcode : IscResult → Rcode
  | .success => .noerror
  | .refused => .refused
  | .notimp => .notimp
  | .formerr => .formerr
  | _ => .servfail

/-- The client states of client.c (ns_clientstate_t). -/
inductive ClientState where
  | idle
  | listening
  | reading
  | working
  | waiting
deriving DecidableEq, Repr

/-- DNS opcodes as discriminated by the switch in client_request; `other`
covers every opcode that reaches the default case. -/
inductive Opcode where
  | query
  | update
  | notify
  | iquery
  | other
deriving DecidableEq, Repr

/-- The message sections rendered by ns_client_send. -/
inductive Section where
  | question
  | answer
  | authority
  | additional
deriving DecidableEq, Repr

/-- The parts of the DNS message object that the client code manipulates
directly: the QR flag and the rcode field. -/
structure Msg where
  qr : Bool
  rcode : Rcode
deriving DecidableEq, Repr

/-- Observable events recorded while an event handler runs. -/
inductive Ev where
  /-- ns_client_next started executing with this result. -/
  | nextRan (r : IscResult)
  /-- ns_client_send invoked ns_client_next (one of its two call sites). -/
  | sendInvNext (r : IscResult)
  /-- ns_client_error invoked ns_client_send. -/
  | errCallSend
  /-- ns_client_error invoked ns_client_next (the unsendable-reply path). -/
  | errCallNext (r : IscResult)
  /-- dns_message_renderbegin was invoked. -/
  | renderBegin
  /-- dns_message_rendersection was invoked on this section. -/
  | renderSec (s : Section)
  /-- dns_message_renderend was invoked. -/
  | renderEnd
  /-- isc_socket_sendto succeeded: a response is in flight to the peer. -/
  | sendtoScheduled
  /-- ns_client_error cleared the QR flag of the message. -/
  | qrCleared
  /-- dns_message_reply was invoked (want_question_section, outcome). -/
  | replyTry (wantQuestion : Bool) (r : IscResult)
  /-- message.rcode was assigned this value. -/
  | rcodeSet (rc : Rcode)
  /-- client_request invoked ns_client_error to finalize the request. -/
  | finError (r : IscResult)
  /-- client_request invoked ns_client_next to finalize the request. -/
  | finNext (r : IscResult)
  /-- client_request handed the request to the query or update handler. -/
  | handlerStart (op : Opcode)
  /-- dns_tcpmsg_readmessage succeeded: a read is registered. -/
  | readRegistered
  /-- isc_socket_accept succeeded: an accept is registered. -/
  | acceptRegistered
  /-- isc_task_shutdown was invoked on the client task. -/
  | taskShutdown
deriving DecidableEq, Repr

/-- Outcomes of every external call that can occur while one event is
handled.  One oracle value plays the role of the environment for the
duration of a single event handler. -/
structure Oracle where
  renderBeginR : IscResult
  renderQuestionR : IscResult
  renderAnswerR : IscResult
  renderAuthorityR : IscResult
  renderAdditionalR : IscResult
  renderEndR : IscResult
  sendtoR : IscResult
  replyWantQ : IscResult
  replyNoQ : IscResult
  readmessageR : IscResult
  acceptR : IscResult
  newconnR : IscResult
  transportR : IscResult
  parseR : IscResult
  viewMatch : Bool
  opcode : Opcode
deriving DecidableEq, Repr

/-- The client fields of struct ns_client that the claims depend on.
Pointer fields are modelled by booleans recording whether they are set. -/
structure Client where
  state : ClientState
  /-- NS_CLIENTATTR_TCP is set in the attributes bitset. -/
  tcpAttr : Bool
  nsends : Nat
  /-- free buffers remaining in the sendbufs mempool (capacity 3). -/
  freeBufs : Nat
  /-- client->dispevent is non-NULL. -/
  dispevent : Bool
  /-- client->tcpsocket is non-NULL. -/
  tcpsocket : Bool
  /-- client->view is non-NULL. -/
  view : Bool
  /-- client->next callback is non-NULL. -/
  nextCB : Bool
  msg : Msg
deriving DecidableEq, Repr

/-- client_accept: register an accept on the TCP listener; on registration
failure the client goes idle (client.c lines 645-667). -/
def client_accept (o : Oracle) (c : Client) : Client × List Ev :=
  if o.acceptR ≠ .success then
    ({ c with state := .idle }, [])
  else
    (c, [Ev.acceptRegistered])

/-- ns_client_next (client.c lines 172-209), fuelled to bound the finite
mutual recursion with client_read: the TCP success branch contains the body
of client_read inline (readmessage, on failure a recursive ns_client_next,
then state := reading); the standalone client_read below is that same body.
The recursion depth is at most two, so fuel 2 realizes the source exactly. -/
def ns_client_next_f : Nat → Oracle → Client → IscResult → Client × List Ev
  | 0, _, c, _ => (c, [])
  | fuel + 1, o, c, result =>
    let c1 : Client := if c.nextCB then { c with nextCB := false } else c
    let c2 : Client := { c1 with view := false, msg := ⟨false, .noerror⟩ }
    if c2.dispevent then
      ({ c2 with dispevent := false, state := .listening }, [Ev.nextRan result])
    else if c2.tcpAttr then
      if result = .success then
        -- client_read, inlined
        if o.readmessageR ≠ .success then
          let p := ns_client_next_f fuel o c2 o.readmessageR
          ({ p.fst with state := .reading }, Ev.nextRan result :: p.snd)
        else
          ({ c2 with state := .reading }, [Ev.nextRan result, Ev.readRegistered])
      else
        let c3 : Client := if c2.tcpsocket then { c2 with tcpsocket := false } else c2
        let p := client_accept o c3
        (p.fst, Ev.nextRan result :: p.snd)
    else
      (c2, [Ev.nextRan result])

/-- ns_client_next with enough fuel for every path of the source. -/
def ns_client_next (o : Oracle) (c : Client) (result : IscResult) : Client × List Ev :=
  ns_client_next_f 2 o c result

/-- client_read (client.c lines 599-610): try to register a TCP message
read; on failure call ns_client_next; in every case the state is then set
to reading. -/
def client_read (o : Oracle) (c : Client) : Client × List Ev :=
  if o.readmessageR ≠ .success then
    let p := ns_client_next o c o.readmessageR
    ({ p.fst with state := .reading }, p.snd)
  else
    ({ c with state := .reading }, [Ev.readRegistered])

/-- The `done:` label of ns_client_send (client.c lines 333-337): if the
accumulated result is not success the acquired buffer is returned to the
pool, and ns_client_next is invoked with that result. -/
def sendFinish (o : Oracle) (c : Client) (result : IscResult) (evs : List Ev) :
    Client × List Ev :=
  let c1 : Client := if result ≠ .success then { c with freeBufs := c.freeBufs + 1 } else c
  let p := ns_client_next o c1 result
  (p.fst, evs ++ Ev.sendInvNext result :: p.snd)

/-- The render-and-transmit phase of ns_client_send (client.c lines
292-338), entered after a send buffer has been acquired.  Each failing
external call jumps to the done label with its result; a NOSPACE from the
ADDITIONAL section does not. -/
def sendRender (o : Oracle) (c : Client) : Client × List Ev :=
  if o.renderBeginR ≠ .success then
    sendFinish o c o.renderBeginR [Ev.renderBegin]
  else if o.renderQuestionR ≠ .success then
    sendFinish o c o.renderQuestionR [Ev.renderBegin, Ev.renderSec .question]
  else if o.renderAnswerR ≠ .success then
    sendFinish o c o.renderAnswerR
      [Ev.renderBegin, Ev.renderSec .question, Ev.renderSec .answer]
  else if o.renderAuthorityR ≠ .success then
    sendFinish o c o.renderAuthorityR
      [Ev.renderBegin, Ev.renderSec .question, Ev.renderSec .answer,
       Ev.renderSec .authority]
  else if o.renderAdditionalR ≠ .success ∧ o.renderAdditionalR ≠ .nospace then
    sendFinish o c o.renderAdditionalR
      [Ev.renderBegin, Ev.renderSec .question, Ev.renderSec .answer,
       Ev.renderSec .authority, Ev.renderSec .additional]
  else if o.renderEndR ≠ .success then
    sendFinish o c o.renderEndR
      [Ev.renderBegin, Ev.renderSec .question, Ev.renderSec .answer,
       Ev.renderSec .authority, Ev.renderSec .additional, Ev.renderEnd]
  else if o.sendtoR = .success then
    sendFinish o { c with nsends := c.nsends + 1 } o.sendtoR
      [Ev.renderBegin, Ev.renderSec .question, Ev.renderSec .answer,
       Ev.renderSec .authority, Ev.renderSec .additional, Ev.renderEnd,
       Ev.sendtoScheduled]
  else
    sendFinish o c o.sendtoR
      [Ev.renderBegin, Ev.renderSec .question, Ev.renderSec .answer,
       Ev.renderSec .authority, Ev.renderSec .additional, Ev.renderEnd]

/-- ns_client_send (client.c lines 242-338).  Buffer acquisition from the
sendbufs mempool is modelled by the freeBufs counter: acquisition fails
exactly when freeBufs = 0. -/
def ns_client_send (o : Oracle) (c : Client) : Client × List Ev :=
  if c.freeBufs = 0 then
    if 0 < c.nsends then
      ({ c with state := .waiting }, [])
    else
      let p := ns_client_next o c .nomemory
      (p.fst, Ev.sendInvNext .nomemory :: p.snd)
  else
    sendRender o { c with freeBufs := c.freeBufs - 1 }

/-- ns_client_error (client.c lines 340-379).  Note that the local result
variable of the source is overwritten by each dns_message_reply call, so
the unsendable-reply path passes the second reply failure to
ns_client_next, while the rcode was computed from the original argument
before the overwrite. -/
def ns_client_error (o : Oracle) (c : Client) (result : IscResult) : Client × List Ev :=
  let rcode := dns_result_torcode result
  let c1 : Client := { c with msg := { c.msg with qr := false } }
  if o.replyWantQ ≠ .success then
    if o.replyNoQ ≠ .success then
      let p := ns_client_next o c1 o.replyNoQ
      (p.fst,
       [Ev.qrCleared, Ev.replyTry true o.replyWantQ, Ev.replyTry false o.replyNoQ,
        Ev.errCallNext o.replyNoQ] ++ p.snd)
    else
      let c2 : Client := { c1 with msg := { qr := true, rcode := rcode } }
      let p := ns_client_send o c2
      (p.fst,
       [Ev.qrCleared, Ev.replyTry true o.replyWantQ, Ev.replyTry false o.replyNoQ,
        Ev.rcodeSet rcode, Ev.errCallSend] ++ p.snd)
  else
    let c2 : Client := { c1 with msg := { qr := true, rcode := rcode } }
    let p := ns_client_send o c2
    (p.fst,
     [Ev.qrCleared, Ev.replyTry true o.replyWantQ, Ev.rcodeSet rcode,
      Ev.errCallSend] ++ p.snd)

/-- client_senddone (client.c lines 211-240): a send completed, so nsends
is decremented and the buffer returns to the pool; a waiting client goes
back to working and retries ns_client_send. -/
def client_senddone (o : Oracle) (c : Client) : Client × List Ev :=
  let c1 : Client := { c with nsends := c.nsends - 1, freeBufs := c.freeBufs + 1 }
  if c1.state = .waiting then
    ns_client_send o { c1 with state := .working }
  else
    (c1, [])

/-- client_request (client.c lines 381-476) from the point the event is
delivered: attach the dispatch event (UDP clients), go to working, handle
transport and parse failures, match a view, and dispatch on the opcode.
The iquery case of the source switch has no break statement and falls
through into the default case, so it runs ns_client_error twice: once with
DNS_R_REFUSED and then with DNS_R_NOTIMP. -/
def client_request (o : Oracle) (c : Client) : Client × List Ev :=
  let c0 : Client := if c.tcpAttr then c else { c with dispevent := true }
  let c1 : Client := { c0 with state := .working }
  if o.transportR ≠ .success then
    if c1.tcpAttr then
      let p := ns_client_next o c1 o.transportR
      (p.fst, Ev.finNext o.transportR :: p.snd)
    else
      (c1, [Ev.taskShutdown])
  else if o.parseR ≠ .success then
    let p := ns_client_error o c1 o.parseR
    (p.fst, Ev.finError o.parseR :: p.snd)
  else if ¬ o.viewMatch then
    let p := ns_client_error o c1 .refused
    (p.fst, Ev.finError .refused :: p.snd)
  else
    let c2 : Client := { c1 with view := true }
    match o.opcode with
    | .query => (c2, [Ev.handlerStart .query])
    | .update => (c2, [Ev.handlerStart .update])
    | .notify =>
      let p := ns_client_next o c2 .success
      (p.fst, Ev.finNext .success :: p.snd)
    | .iquery =>
      let p := ns_client_error o c2 .refused
      let q := ns_client_error o p.fst .notimp
      (q.fst, Ev.finError .refused :: p.snd ++ Ev.finError .notimp :: q.snd)
    | .other =>
      let p := ns_client_error o c2 .notimp
      (p.fst, Ev.finError .notimp :: p.snd)

/-- client_newconn (client.c lines 612-643): on a successful accept
completion, attach the new socket and start reading; otherwise go idle. -/
def client_newconn (o : Oracle) (c : Client) : Client × List Ev :=
  if o.newconnR = .success then
    client_read o { c with tcpsocket := true }
  else
    ({ c with state := .idle }, [])

/-- client_timeout (client.c lines 478-495): finalize with ISC_R_TIMEDOUT. -/
def client_timeout (o : Oracle) (c : Client) : Client × List Ev :=
  ns_client_next o c .timedout

/-!  The quiescent-state transition system: one step is one event handler
running to completion on the client task, with the oracle fixing every
external outcome during that handler.  A step can be refused
(none) when an assertion of the source (REQUIRE / INSIST) would fail or
when the spec forbids the event (the finalize operations may only be called
by a handler while the client is working). -/

/-- One deliverable event together with the external outcomes seen while
handling it. -/
inductive CEvent where
  /-- a dispatch or tcpmsg completion delivered to client_request -/
  | request (o : Oracle)
  /-- a send completion delivered to client_senddone (INSIST nsends > 0) -/
  | senddone (o : Oracle)
  /-- the idle/life timer fired (ns_client_next REQUIRE on the state) -/
  | timeout (o : Oracle)
  /-- an accept completion delivered to client_newconn -/
  | newconn (o : Oracle)
  /-- the request handler finalizes by calling ns_client_send -/
  | finalizeSend (o : Oracle)
  /-- the request handler finalizes by calling ns_client_error -/
  | finalizeError (o : Oracle) (r : IscResult)
  /-- the request handler finalizes by calling ns_client_next -/
  | finalizeNext (o : Oracle) (r : IscResult)
deriving DecidableEq, Repr

/-- The effect of one event on a quiescent client. -/
def clientStep : CEvent → Client → Option Client
  | .request o, c => some (client_request o c).fst
  | .senddone o, c =>
    if 0 < c.nsends then some (client_senddone o c).fst else none
  | .timeout o, c =>
    if c.state = .listening ∨ c.state = .working then
      some (client_timeout o c).fst
    else none
  | .newconn o, c => some (client_newconn o c).fst
  | .finalizeSend o, c =>
    if c.state = .working then some (ns_client_send o c).fst else none
  | .finalizeError o r, c =>
    if c.state = .working then some (ns_client_error o c r).fst else none
  | .finalizeNext o r, c =>
    if c.state = .working then some (ns_client_next o c r).fst else none

/-- Run a sequence of events from a quiescent client. -/
def clientRun : List CEvent → Client → Option Client
  | [], c => some c
  | e :: es, c =>
    match clientStep e c with
    | none => none
    | some c2 => clientRun es c2

/-- The claimed quiescent invariant: a waiting client has a send
outstanding. -/
def WaitInv (c : Client) : Prop := c.state = .waiting → 0 < c.nsends

instance (c : Client) : Decidable (WaitInv c) := by
  unfold WaitInv; infer_instance

/-!  The client manager (client.c lines 54-65 and 669-858). -/

/-- The manager fields the claims depend on.  The destroyed flag records
that clientmgr_destroy has freed the manager. -/
structure Manager where
  exiting : Bool
  destroyed : Bool
  nclients : Nat
  clients : List Nat
deriving DecidableEq, Repr

/-- clientmgr_destroy (client.c lines 673-682): frees the manager
(REQUIRE nclients = 0 is enforced by the step guards below). -/
def clientmgr_destroy (m : Manager) : Manager :=
  { m with destroyed := true }

/-- ns_clientmgr_destroy (client.c lines 719-749): set exiting, shut down
every client task (their destroy events arrive later as clientDone steps),
and destroy the manager synchronously when the client list is empty. -/
def ns_clientmgr_destroy (m : Manager) : Manager :=
  let m1 : Manager := { m with exiting := true }
  if m1.clients = [] then clientmgr_destroy m1 else m1

/-- client_destroy, manager part (client.c lines 125-150): decrement
nclients, unlink the client, and destroy the manager if the count reached
zero while the manager is exiting. -/
def client_destroy (m : Manager) (id : Nat) : Manager :=
  let m1 : Manager := { m with nclients := m.nclients - 1, clients := m.clients.erase id }
  if m1.nclients = 0 ∧ m1.exiting then clientmgr_destroy m1 else m1

/-- Manager-level events: the public destroy call, and one client task
shutdown completing. -/
inductive MEvent where
  | mgrDestroy
  | clientDone (id : Nat)
deriving DecidableEq, Repr

/-- One manager step.  A freed manager receives no further events; a
clientDone step requires the client to still be listed and the INSIST
nclients > 0 of client_destroy to hold. -/
def mgrStep : MEvent → Manager → Option Manager
  | .mgrDestroy, m =>
    if m.destroyed then none else some (ns_clientmgr_destroy m)
  | .clientDone id, m =>
    if m.destroyed ∨ m.nclients = 0 ∨ id ∉ m.clients then none
    else some (client_destroy m id)

/-- Run a sequence of manager events. -/
def mgrRun : List MEvent → Manager → Option Manager
  | [], m => some m
  | e :: es, m =>
    match mgrStep e m with
    | none => none
    | some m2 => mgrRun es m2

/-- The manager bookkeeping invariant: the count matches the list, and a
freed manager was freed with no clients while exiting. -/
def MgrInv (m : Manager) : Prop :=
  m.nclients = m.clients.length ∧
    (m.destroyed = true → m.nclients = 0 ∧ m.exiting = true)

instance (m : Manager) : Decidable (MgrInv m) := by
  unfold MgrInv; infer_instance

/-!  Client creation loops (client.c lines 751-858). -/

/-- Outcomes of the external calls made while creating and registering the
i-th client of a creation loop. -/
structure MgrOracle where
  createR : Nat → IscResult
  addRequestR : Nat → IscResult

/-- The loop of ns_clientmgr_addtodispatch (client.c lines 772-789): the
first argument is the loop counter i (clients registered so far), the
second the remaining iterations.  A failing client_create or
dns_dispatch_addrequest breaks out with its result. -/
def dispatchLoop (o : MgrOracle) : Nat → Nat → IscResult × Nat
  | i, 0 => (.success, i)
  | i, rem + 1 =>
    if o.createR i ≠ .success then (o.createR i, i)
    else if o.addRequestR i ≠ .success then (o.addRequestR i, i)
    else dispatchLoop o (i + 1) rem

/-- ns_clientmgr_addtodispatch (client.c lines 751-801): returns its result
and the number of clients registered; a nonzero count declares victory. -/
def ns_clientmgr_addtodispatch (o : MgrOracle) (n : Nat) : IscResult × Nat :=
  let p := dispatchLoop o 0 n
  (if p.snd ≠ 0 then .success else p.fst, p.snd)

/-- The loop of ns_clientmgr_accepttcp (client.c lines 835-846): only
client_create can break the loop; a failing client_accept merely leaves
that client idle. -/
def accepttcpLoop (o : MgrOracle) : Nat → Nat → IscResult × Nat
  | i, 0 => (.success, i)
  | i, rem + 1 =>
    if o.createR i ≠ .success then (o.createR i, i)
    else accepttcpLoop o (i + 1) rem

/-- ns_clientmgr_accepttcp (client.c lines 803-858). -/
def ns_clientmgr_accepttcp (o : MgrOracle) (n : Nat) : IscResult × Nat :=
  let p := accepttcpLoop o 0 n
  (if p.snd ≠ 0 then .success else p.fst, p.snd)

/-!  Trace observations used by the claims. -/

/-- The events ns_client_next itself can emit. -/
def isNextEv : Ev → Bool
  | .nextRan _ => true
  | .readRegistered => true
  | .acceptRegistered => true
  | _ => false

/-- The events of the rendering phase. -/
def isRenderEv : Ev → Bool
  | .renderBegin => true
  | .renderSec _ => true
  | .renderEnd => true
  | _ => false

/-- Is this event an invocation of ns_client_next by ns_client_send? -/
def isSendInvNext : Ev → Bool
  | .sendInvNext _ => true
  | _ => false

/-- Is this event a finalize invocation made by client_request (counting a
handoff to the query or update handler as the single finalize the handler
contract requires)? -/
def isDispatchFinalize : Ev → Bool
  | .finError _ => true
  | .finNext _ => true
  | .handlerStart _ => true
  | _ => false

/-- Number of times ns_client_send invoked ns_client_next in a trace. -/
def countNextInv (l : List Ev) : Nat := l.countP fun e => isSendInvNext e

/-- Number of finalize invocations client_request made in a trace. -/
def countFinalize (l : List Ev) : Nat := l.countP fun e => isDispatchFinalize e

/-!  Lemmas about ns_client_next. -/

theorem client_accept_nsends (o : Oracle) (c : Client) :
    (client_accept o c).fst.nsends = c.nsends := by
  unfold client_accept; split <;> rfl

theorem client_accept_freeBufs (o : Oracle) (c : Client) :
    (client_accept o c).fst.freeBufs = c.freeBufs := by
  unfold client_accept; split <;> rfl

theorem client_accept_state (o : Oracle) (c : Client) :
    (client_accept o c).fst.state = .idle ∨ (client_accept o c).fst.state = c.state := by
  unfold client_accept; split
  · exact Or.inl rfl
  · exact Or.inr rfl

theorem client_accept_evs (o : Oracle) (c : Client) :
    ∀ e ∈ (client_accept o c).snd, isNextEv e = true := by
  unfold client_accept; split <;> simp [isNextEv]

theorem next_f_nsends (fuel : Nat) (o : Oracle) (c : Client) (r : IscResult) :
    (ns_client_next_f fuel o c r).fst.nsends = c.nsends := by
  induction fuel generalizing c r with
  | zero => rfl
  | succ n ih =>
    simp only [ns_client_next_f]
    split_ifs <;> simp [ih, client_accept_nsends]

theorem next_f_freeBufs (fuel : Nat) (o : Oracle) (c : Client) (r : IscResult) :
    (ns_client_next_f fuel o c r).fst.freeBufs = c.freeBufs := by
  induction fuel generalizing c r with
  | zero => rfl
  | succ n ih =>
    simp only [ns_client_next_f]
    split_ifs <;> simp [ih, client_accept_freeBufs]

theorem client_accept_waiting (o : Oracle) (c : Client) :
    (client_accept o c).fst.state = .waiting → c.state = .waiting := by
  unfold client_accept; split
  · intro h; simp at h
  · exact fun h => h

theorem next_f_waiting (fuel : Nat) (o : Oracle) (c : Client) (r : IscResult) :
    (ns_client_next_f fuel o c r).fst.state = .waiting → c.state = .waiting := by
  induction fuel generalizing c r with
  | zero => exact fun h => h
  | succ n ih =>
    intro h
    simp only [ns_client_next_f] at h
    split_ifs at h <;>
      first
        | (have h3 := client_accept_waiting o _ h; simp_all)
        | simp_all

theorem next_f_evs (fuel : Nat) (o : Oracle) (c : Client) (r : IscResult) :
    ∀ e ∈ (ns_client_next_f fuel o c r).snd, isNextEv e = true := by
  induction fuel generalizing c r with
  | zero => intro e h; simp [ns_client_next_f] at h
  | succ n ih =>
    intro e h
    simp only [ns_client_next_f] at h
    split_ifs at h <;>
      (rcases List.mem_cons.mp h with h2 | h2
       · simp [h2, isNextEv]
       · first
           | exact ih _ _ e h2
           | exact client_accept_evs o _ e h2
           | (rcases List.mem_cons.mp h2 with h3 | h3
              · simp [h3, isNextEv]
              · simp at h3)
           | simp at h2)

/-!  Lemmas about ns_client_send. -/

theorem sendFinish_nsends (o : Oracle) (c : Client) (r : IscResult) (evs : List Ev) :
    (sendFinish o c r evs).fst.nsends = c.nsends := by
  unfold sendFinish ns_client_next
  split_ifs <;> simp [next_f_nsends]

theorem sendFinish_waiting (o : Oracle) (c : Client) (r : IscResult) (evs : List Ev) :
    (sendFinish o c r evs).fst.state = .waiting → c.state = .waiting := by
  unfold sendFinish ns_client_next
  split_ifs <;> intro h <;> have h2 := next_f_waiting 2 o _ r h <;> simp_all

theorem sendFinish_evs (o : Oracle) (c : Client) (r : IscResult) (evs : List Ev) :
    ∀ e ∈ (sendFinish o c r evs).snd, e ∈ evs ∨ e = Ev.sendInvNext r ∨ isNextEv e = true := by
  unfold sendFinish ns_client_next
  intro e h
  split_ifs at h <;>
    (rw [List.mem_append] at h
     rcases h with h | h
     · exact Or.inl h
     · rcases List.mem_cons.mp h with h2 | h2
       · exact Or.inr (Or.inl h2)
       · exact Or.inr (Or.inr (next_f_evs 2 o _ r e h2)))

theorem next_trace_no_sendInv (o : Oracle) (c : Client) (r : IscResult) :
    List.countP (fun e => isSendInvNext e) (ns_client_next o c r).snd = 0 := by
  rw [List.countP_eq_zero]
  intro e he
  have h2 := next_f_evs 2 o c r e he
  cases e <;> simp_all [isNextEv, isSendInvNext]

theorem sendFinish_count (o : Oracle) (c : Client) (r : IscResult) (evs : List Ev) :
    countNextInv (sendFinish o c r evs).snd = countNextInv evs + 1 := by
  unfold sendFinish countNextInv
  split_ifs with h1
  · rw [List.countP_append, List.countP_cons, next_trace_no_sendInv o _ r]
    simp [isSendInvNext]
  · rw [List.countP_append, List.countP_cons, next_trace_no_sendInv o _ r]
    simp [isSendInvNext]

theorem sendRender_nsends_ge (o : Oracle) (c : Client) :
    c.nsends ≤ (sendRender o c).fst.nsends := by
  unfold sendRender
  split_ifs <;> simp [sendFinish_nsends]

theorem sendRender_waiting (o : Oracle) (c : Client) :
    (sendRender o c).fst.state = .waiting → c.state = .waiting := by
  unfold sendRender
  split_ifs <;> intro h <;> have h2 := sendFinish_waiting o _ _ _ h <;> simp_all

/-- WaitInv is preserved by a call to ns_client_send. -/
theorem send_waitInv (o : Oracle) (c : Client) (h : WaitInv c) :
    WaitInv (ns_client_send o c).fst := by
  unfold ns_client_send
  split_ifs with h1 h2
  · intro _; exact h2
  · intro hw
    have h3 := next_f_waiting 2 o c .nomemory hw
    have h4 := h h3
    omega
  · intro hw
    have h3 := sendRender_waiting o _ hw
    simp at h3
    have h4 := h h3
    have h5 := sendRender_nsends_ge o { c with freeBufs := c.freeBufs - 1 }
    simp at h5
    omega

/-- WaitInv is preserved by a call to ns_client_error. -/
theorem error_waitInv (o : Oracle) (c : Client) (r : IscResult) (h : WaitInv c) :
    WaitInv (ns_client_error o c r).fst := by
  unfold ns_client_error
  split_ifs with h1 h2
  · intro hw
    have h3 := next_f_waiting 2 o _ _ hw
    simp at h3
    have h4 := h h3
    have h5 := next_f_nsends 2 o { c with msg := { c.msg with qr := false } } o.replyNoQ
    simp_all [ns_client_next]
  · intro hw
    have h3 := send_waitInv o _ (fun h4 => by simp_all [WaitInv]) hw
    exact h3
  · intro hw
    have h3 := send_waitInv o _ (fun h4 => by simp_all [WaitInv]) hw
    exact h3

/-- WaitInv is preserved by a call to ns_client_next. -/
theorem next_waitInv (o : Oracle) (c : Client) (r : IscResult) (h : WaitInv c) :
    WaitInv (ns_client_next o c r).fst := by
  intro hw
  have h2 := next_f_waiting 2 o c r hw
  have h3 := next_f_nsends 2 o c r
  unfold ns_client_next at hw ⊢
  rw [h3]
  exact h h2

/-- WaitInv is preserved by client_request. -/
theorem request_waitInv (o : Oracle) (c : Client) :
    WaitInv (client_request o c).fst := by
  unfold client_request
  dsimp only
  split_ifs <;>
    first
      | (refine next_waitInv o _ _ ?_; intro h2; simp at h2; done)
      | (refine error_waitInv o _ _ ?_; intro h2; simp at h2; done)
      | (intro h2; simp at h2; done)
      | (cases o.opcode with
         | query => intro h2; simp at h2
         | update => intro h2; simp at h2
         | notify => refine next_waitInv o _ _ ?_; intro h2; simp at h2
         | iquery =>
           refine error_waitInv o _ _ (error_waitInv o _ _ ?_); intro h2; simp at h2
         | other => refine error_waitInv o _ _ ?_; intro h2; simp at h2)

/-- WaitInv is preserved by client_senddone. -/
theorem senddone_waitInv (o : Oracle) (c : Client) :
    WaitInv (client_senddone o c).fst := by
  unfold client_senddone
  dsimp only
  split_ifs with h1
  · exact send_waitInv o _ (by intro h2; simp at h2)
  · intro h2; exact absurd h2 h1

/-- WaitInv is preserved by client_newconn. -/
theorem newconn_waitInv (o : Oracle) (c : Client) :
    WaitInv (client_newconn o c).fst := by
  unfold client_newconn client_read
  split_ifs <;> intro h2 <;> simp at h2

/-- WaitInv is preserved by every quiescent step. -/
theorem clientStep_waitInv (e : CEvent) (c c2 : Client) (h : WaitInv c)
    (hs : clientStep e c = some c2) : WaitInv c2 := by
  cases e with
  | request o =>
    simp only [clientStep, Option.some.injEq] at hs
    rw [← hs]; exact request_waitInv o c
  | senddone o =>
    simp only [clientStep] at hs
    by_cases h1 : 0 < c.nsends
    · rw [if_pos h1, Option.some.injEq] at hs
      rw [← hs]; exact senddone_waitInv o c
    · rw [if_neg h1] at hs; cases hs
  | timeout o =>
    simp only [clientStep] at hs
    by_cases h1 : c.state = .listening ∨ c.state = .working
    · rw [if_pos h1, Option.some.injEq] at hs
      rw [← hs]; exact next_waitInv o c _ h
    · rw [if_neg h1] at hs; cases hs
  | newconn o =>
    simp only [clientStep, Option.some.injEq] at hs
    rw [← hs]; exact newconn_waitInv o c
  | finalizeSend o =>
    simp only [clientStep] at hs
    by_cases h1 : c.state = .working
    · rw [if_pos h1, Option.some.injEq] at hs
      rw [← hs]; exact send_waitInv o c h
    · rw [if_neg h1] at hs; cases hs
  | finalizeError o r =>
    simp only [clientStep] at hs
    by_cases h1 : c.state = .working
    · rw [if_pos h1, Option.some.injEq] at hs
      rw [← hs]; exact error_waitInv o c r h
    · rw [if_neg h1] at hs; cases hs
  | finalizeNext o r =>
    simp only [clientStep] at hs
    by_cases h1 : c.state = .working
    · rw [if_pos h1, Option.some.injEq] at hs
      rw [← hs]; exact next_waitInv o c r h
    · rw [if_neg h1] at hs; cases hs

/-- WaitInv is preserved by any sequence of quiescent steps. -/
theorem clientRun_waitInv (evs : List CEvent) (c c2 : Client) (h : WaitInv c)
    (hr : clientRun evs c = some c2) : WaitInv c2 := by
  induction evs generalizing c with
  | nil =>
    simp only [clientRun, Option.some.injEq] at hr
    rw [← hr]; exact h
  | cons e es ih =>
    simp only [clientRun] at hr
    cases hstep : clientStep e c with
    | none => rw [hstep] at hr; cases hr
    | some c3 =>
      rw [hstep] at hr
      exact ih c3 (clientStep_waitInv e c c3 h hstep) hr

/-!  Lemmas about the client manager. -/

/-- MgrInv is preserved by every manager step. -/
theorem mgrStep_inv (e : MEvent) (m m2 : Manager) (h : MgrInv m)
    (hs : mgrStep e m = some m2) : MgrInv m2 := by
  obtain ⟨hlen, hdes⟩ := h
  cases e with
  | mgrDestroy =>
    simp only [mgrStep] at hs
    by_cases h1 : m.destroyed = true
    · rw [if_pos h1] at hs; cases hs
    · rw [if_neg h1, Option.some.injEq] at hs
      rw [← hs]
      unfold ns_clientmgr_destroy clientmgr_destroy
      dsimp only
      split_ifs with h2
      · exact ⟨by simp [hlen, h2], fun _ => by simp [hlen, h2]⟩
      · exact ⟨by simp [hlen], fun h3 => by simp_all⟩
  | clientDone id =>
    simp only [mgrStep] at hs
    by_cases h1 : m.destroyed = true ∨ m.nclients = 0 ∨ id ∉ m.clients
    · rw [if_pos h1] at hs; cases hs
    · rw [if_neg h1, Option.some.injEq] at hs
      push_neg at h1
      obtain ⟨hd, hn, hmem⟩ := h1
      rw [← hs]
      unfold client_destroy clientmgr_destroy
      dsimp only
      have herase : (m.clients.erase id).length = m.clients.length - 1 :=
        List.length_erase_of_mem hmem
      split_ifs with h2
      · exact ⟨by simp [herase, hlen], fun _ => by simp_all⟩
      · refine ⟨by simp [herase, hlen], fun h3 => by simp_all⟩

/-- MgrInv is preserved by any run of manager events. -/
theorem mgrRun_inv (evs : List MEvent) (m m2 : Manager) (h : MgrInv m)
    (hr : mgrRun evs m = some m2) : MgrInv m2 := by
  induction evs generalizing m with
  | nil =>
    simp only [mgrRun, Option.some.injEq] at hr
    rw [← hr]; exact h
  | cons e es ih =>
    simp only [mgrRun] at hr
    cases hstep : mgrStep e m with
    | none => rw [hstep] at hr; cases hr
    | some m3 =>
      rw [hstep] at hr
      exact ih m3 (mgrStep_inv e m m3 h hstep) hr

/-!  Lemmas about the creation loops. -/

theorem dispatchLoop_zero (o : MgrOracle) (i rem : Nat)
    (h : (dispatchLoop o i rem).snd = i) (hrem : 0 < rem) :
    (dispatchLoop o i rem).fst =
      (if o.createR i ≠ .success then o.createR i else o.addRequestR i) ∧
      (dispatchLoop o i rem).fst ≠ .success := by
  cases rem with
  | zero => cases hrem
  | succ k =>
    simp only [dispatchLoop] at h ⊢
    split_ifs at h ⊢ with h1 h2
    · exact ⟨rfl, h1⟩
    · exact ⟨rfl, h2⟩
    · exfalso
      have hge : ∀ j n, j ≤ (dispatchLoop o j n).snd := by
        intro j n
        induction n generalizing j with
        | zero => simp [dispatchLoop]
        | succ n2 ih =>
          simp only [dispatchLoop]
          split_ifs
          · exact le_refl j
          · exact le_refl j
          · exact le_trans (Nat.le_succ j) (ih (j + 1))
      have h3 := hge (i + 1) k
      omega

theorem accepttcpLoop_zero (o : MgrOracle) (i rem : Nat)
    (h : (accepttcpLoop o i rem).snd = i) (hrem : 0 < rem) :
    (accepttcpLoop o i rem).fst = o.createR i ∧
      (accepttcpLoop o i rem).fst ≠ .success := by
  cases rem with
  | zero => cases hrem
  | succ k =>
    simp only [accepttcpLoop] at h ⊢
    split_ifs at h ⊢ with h1
    · exact ⟨rfl, h1⟩
    · exfalso
      have hge : ∀ j n, j ≤ (accepttcpLoop o j n).snd := by
        intro j n
        induction n generalizing j with
        | zero => simp [accepttcpLoop]
        | succ n2 ih =>
          simp only [accepttcpLoop]
          split_ifs
          · exact le_refl j
          · exact le_trans (Nat.le_succ j) (ih (j + 1))
      have h3 := hge (i + 1) k
      omega

/-!  Trace lemmas about ns_client_next used by the claims. -/

theorem next_trace_mem (o : Oracle) (c : Client) (r : IscResult) (e : Ev)
    (h : e ∈ (ns_client_next o c r).snd) : isNextEv e = true :=
  next_f_evs 2 o c r e h

theorem next_trace_no_render (o : Oracle) (c : Client) (r : IscResult) :
    (ns_client_next o c r).snd.filter (fun e => isRenderEv e) = [] := by
  rw [List.filter_eq_nil_iff]
  intro e he
  have h2 := next_trace_mem o c r e he
  cases e <;> simp_all [isNextEv, isRenderEv]

theorem next_trace_no_sendto (o : Oracle) (c : Client) (r : IscResult) :
    Ev.sendtoScheduled ∉ (ns_client_next o c r).snd := by
  intro h
  have h2 := next_trace_mem o c r _ h
  simp [isNextEv] at h2

theorem sendFinish_render_filter (o : Oracle) (c : Client) (r : IscResult) (evs : List Ev) :
    (sendFinish o c r evs).snd.filter (fun e => isRenderEv e) =
      evs.filter (fun e => isRenderEv e) := by
  unfold sendFinish
  split_ifs <;>
    (rw [List.filter_append, List.filter_cons, next_trace_no_render o _ r]
     simp [isRenderEv])

theorem sendFinish_mem_next (o : Oracle) (c : Client) (r : IscResult) (evs : List Ev) :
    Ev.sendInvNext r ∈ (sendFinish o c r evs).snd := by
  unfold sendFinish
  split_ifs <;> simp

theorem sendFinish_freeBufs_fail (o : Oracle) (c : Client) (r : IscResult) (evs : List Ev)
    (h : r ≠ .success) : (sendFinish o c r evs).fst.freeBufs = c.freeBufs + 1 := by
  unfold sendFinish
  rw [if_pos h]
  exact next_f_freeBufs 2 o _ r

theorem sendFinish_no_sendto (o : Oracle) (c : Client) (r : IscResult) (evs : List Ev)
    (h : Ev.sendtoScheduled ∉ evs) : Ev.sendtoScheduled ∉ (sendFinish o c r evs).snd := by
  unfold sendFinish
  intro hmem
  split_ifs at hmem <;>
    (rw [List.mem_append] at hmem
     rcases hmem with h2 | h2
     · exact h h2
     · rcases List.mem_cons.mp h2 with h3 | h3
       · cases h3
       · exact next_trace_no_sendto o _ r h3)

/-- Spec-side description of the rendering schedule, following the words of
the claim: the sections are rendered in the order Question, Answer,
Authority, Additional, each render error stopping the sequence, except
that a NoSpace result from the Additional section is tolerated and
rendering proceeds to render-end. -/
def specRenderEvents (o : Oracle) : List Ev :=
  Ev.renderBegin ::
    (if o.renderBeginR ≠ .success then []
     else Ev.renderSec .question ::
       (if o.renderQuestionR ≠ .success then []
        else Ev.renderSec .answer ::
          (if o.renderAnswerR ≠ .success then []
           else Ev.renderSec .authority ::
             (if o.renderAuthorityR ≠ .success then []
              else Ev.renderSec .additional ::
                (if o.renderAdditionalR ≠ .success ∧ o.renderAdditionalR ≠ .nospace then []
                 else [Ev.renderEnd])))))

/-!  Concrete fixtures used by counterexamples and witnesses. -/

/-- An environment in which every external call succeeds, a view matches,
and the inbound opcode is QUERY. -/
def oracleOk : Oracle :=
  ⟨.success, .success, .success, .success, .success, .success, .success,
   .success, .success, .success, .success, .success, .success, .success,
   true, .query⟩

/-- The same environment with opcode IQUERY. -/
def oracleIquery : Oracle := { oracleOk with opcode := .iquery }

/-- An environment in which both dns_message_reply attempts fail. -/
def oracleReplyFail : Oracle :=
  { oracleOk with replyWantQ := .failure 7, replyNoQ := .failure 8 }

/-- A freshly registered UDP client, as produced by
ns_clientmgr_addtodispatch: listening, no sends outstanding, full pool. -/
def clientUdp : Client :=
  ⟨.listening, false, 0, 3, false, false, false, false, ⟨false, .noerror⟩⟩

/-- A working UDP client whose send pool is exhausted while one send is
still outstanding. -/
def clientPoolEmpty : Client :=
  ⟨.working, false, 1, 0, true, false, true, false, ⟨false, .noerror⟩⟩

/-- A TCP client about to re-arm its connection read. -/
def clientTcp : Client :=
  ⟨.working, true, 0, 3, false, true, false, false, ⟨false, .noerror⟩⟩

/-!  Claim theorems. -/

/-- C1: the claim says that every accepted request is finalized by exactly
one invocation of send, error or next.  The code violates this: the iquery
case of the opcode switch in client_request has no break and falls through
to the default case, so a parsed IQUERY request (transport and parse
successful, matching view) is finalized twice, by ns_client_error(REFUSED)
and then ns_client_error(NOTIMP).  This theorem evaluates the dispatch at
that failing input and counts two finalize invocations. -/
theorem c1_iquery_double_finalize :
    countFinalize (client_request oracleIquery clientUdp).snd = 2 := by decide

/-- C2: the claim says an IQUERY request is finalized by error(REFUSED)
and the response carries rcode REFUSED and not NOTIMP.  Because of the
missing break, after the REFUSED response is scheduled the fall-through
runs ns_client_error(NOTIMP) as well: the message rcode is set to REFUSED
and then to NOTIMP, and two responses are scheduled to the peer. -/
theorem c2_iquery_refused_then_notimp :
    (client_request oracleIquery clientUdp).snd.filter
        (fun e => match e with | Ev.rcodeSet _ => true | _ => false) =
      [Ev.rcodeSet .refused, Ev.rcodeSet .notimp] ∧
    (client_request oracleIquery clientUdp).snd.countP
        (fun e => decide (e = Ev.sendtoScheduled)) = 2 := by decide

/-- C3 counterexample: the claim says every call to send() invokes
next(result) exactly once before returning.  With the send pool empty and
one send outstanding, ns_client_send transitions to waiting and returns
without invoking next at all. -/
theorem c3_counterexample :
    ¬ countNextInv (ns_client_send oracleOk clientPoolEmpty).snd = 1 := by decide

/-- C3 amended: a call to send() that finds the pool empty while sends are
outstanding transitions the client to Waiting and does not invoke next on
that call; every other call to send() invokes next(result) exactly once
before returning. -/
theorem c3_send_next_once (o : Oracle) (c : Client) :
    (c.freeBufs = 0 → 0 < c.nsends →
      ns_client_send o c = ({ c with state := .waiting }, []))
    ∧ (c.freeBufs ≠ 0 ∨ c.nsends = 0 →
        countNextInv (ns_client_send o c).snd = 1) := by
  constructor
  · intro h1 h2
    unfold ns_client_send
    rw [if_pos h1, if_pos h2]
  · intro h
    by_cases hf : c.freeBufs = 0
    · have hn : c.nsends = 0 := by
        rcases h with h | h
        · exact absurd hf h
        · exact h
      unfold ns_client_send
      rw [if_pos hf, if_neg (by omega : ¬ 0 < c.nsends)]
      unfold countNextInv
      rw [List.countP_cons, next_trace_no_sendInv o c .nomemory]
      simp [isSendInvNext]
    · unfold ns_client_send
      rw [if_neg hf]
      unfold sendRender
      split_ifs <;> rw [sendFinish_count] <;> decide

/-- C3 witness: the amended statement at concrete inputs. -/
theorem c3_witness :
    ns_client_send oracleOk clientPoolEmpty =
      ({ clientPoolEmpty with state := .waiting }, []) ∧
    countNextInv (ns_client_send oracleOk clientUdp).snd = 1 :=
  ⟨(c3_send_next_once oracleOk clientPoolEmpty).1 rfl (by decide),
   (c3_send_next_once oracleOk clientUdp).2 (Or.inl (by decide))⟩

/-- C4: when send() finds the pool empty, a working client with
outstanding sends moves to Waiting with nothing rendered, transmitted or
finalized; with no outstanding sends the request is finalized with
next(NOMEMORY) and nothing is rendered or transmitted; and client_senddone
retries ns_client_send for a waiting client after returning the buffer. -/
theorem c4_pool_empty (o : Oracle) (c : Client) :
    (c.freeBufs = 0 → 0 < c.nsends → c.state = .working →
      ns_client_send o c = ({ c with state := .waiting }, []))
    ∧ (c.freeBufs = 0 → c.nsends = 0 →
        ns_client_send o c =
          ((ns_client_next o c .nomemory).fst,
            Ev.sendInvNext .nomemory :: (ns_client_next o c .nomemory).snd) ∧
        ∀ e ∈ (ns_client_send o c).snd, isRenderEv e = false ∧ e ≠ Ev.sendtoScheduled)
    ∧ (c.state = .waiting →
        client_senddone o c =
          ns_client_send o
            { c with
                state := ClientState.working
                nsends := c.nsends - 1
                freeBufs := c.freeBufs + 1 }) := by
  refine ⟨?_, ?_, ?_⟩
  · intro h1 h2 _
    unfold ns_client_send
    rw [if_pos h1, if_pos h2]
  · intro h1 h2
    have he : ns_client_send o c =
        ((ns_client_next o c .nomemory).fst,
          Ev.sendInvNext .nomemory :: (ns_client_next o c .nomemory).snd) := by
      unfold ns_client_send
      rw [if_pos h1, if_neg (by omega : ¬ 0 < c.nsends)]
    refine ⟨he, ?_⟩
    intro e hmem
    rw [he] at hmem
    rcases List.mem_cons.mp hmem with h3 | h3
    · subst h3; exact ⟨rfl, by simp⟩
    · have h4 := next_trace_mem o c .nomemory e h3
      cases e <;> simp_all [isNextEv, isRenderEv]
  · intro h1
    unfold client_senddone
    dsimp only
    rw [if_pos (by simpa using h1)]

/-- C4 witness: the three clauses at concrete inputs. -/
theorem c4_witness :
    ns_client_send oracleOk clientPoolEmpty =
      ({ clientPoolEmpty with state := .waiting }, []) ∧
    ns_client_send oracleOk { clientUdp with freeBufs := 0 } =
      ((ns_client_next oracleOk { clientUdp with freeBufs := 0 } .nomemory).fst,
        Ev.sendInvNext .nomemory ::
          (ns_client_next oracleOk { clientUdp with freeBufs := 0 } .nomemory).snd) ∧
    client_senddone oracleOk { clientPoolEmpty with state := .waiting } =
      ns_client_send oracleOk
        { clientPoolEmpty with
            state := ClientState.working
            nsends := clientPoolEmpty.nsends - 1
            freeBufs := clientPoolEmpty.freeBufs + 1 } :=
  ⟨(c4_pool_empty oracleOk clientPoolEmpty).1 rfl (by decide) rfl,
   ((c4_pool_empty oracleOk { clientUdp with freeBufs := 0 }).2.1 rfl rfl).1,
   (c4_pool_empty oracleOk { clientPoolEmpty with state := .waiting }).2.2 rfl⟩

/-- C5: ns_client_error first clears the QR flag of the message, then asks
the codec for a reply preserving the question section; on failure it
retries without the question section; when both attempts fail the request
is finalized with next and no response is scheduled; otherwise the message
rcode is set to the rcode mapped from the original result and
ns_client_send is called. -/
theorem c5_error_reply_fallback (o : Oracle) (c : Client) (r : IscResult) :
    ((ns_client_error o c r).snd.take 2 =
      [Ev.qrCleared, Ev.replyTry true o.replyWantQ])
    ∧ (o.replyWantQ = .success →
        Ev.rcodeSet (dns_result_torcode r) ∈ (ns_client_error o c r).snd ∧
        Ev.errCallSend ∈ (ns_client_error o c r).snd)
    ∧ (o.replyWantQ ≠ .success → o.replyNoQ = .success →
        Ev.replyTry false o.replyNoQ ∈ (ns_client_error o c r).snd ∧
        Ev.rcodeSet (dns_result_torcode r) ∈ (ns_client_error o c r).snd ∧
        Ev.errCallSend ∈ (ns_client_error o c r).snd)
    ∧ (o.replyWantQ ≠ .success → o.replyNoQ ≠ .success →
        Ev.errCallNext o.replyNoQ ∈ (ns_client_error o c r).snd ∧
        Ev.errCallSend ∉ (ns_client_error o c r).snd ∧
        Ev.sendtoScheduled ∉ (ns_client_error o c r).snd) := by
  unfold ns_client_error
  dsimp only
  split_ifs with h1 h2
  · refine ⟨by simp, fun hs => absurd hs h1, fun _ hs => absurd hs h2, fun _ _ => ?_⟩
    refine ⟨by simp, ?_, ?_⟩
    · intro hmem
      rcases List.mem_append.mp hmem with hm | hm
      · simp at hm
      · have h3 := next_trace_mem o _ _ _ hm
        simp [isNextEv] at h3
    · intro hmem
      rcases List.mem_append.mp hmem with hm | hm
      · simp at hm
      · exact next_trace_no_sendto o _ _ hm
  · refine ⟨by simp, fun hs => absurd hs h1, fun _ _ => ?_, fun _ hns => absurd hns h2⟩
    exact ⟨by simp, by simp, by simp⟩
  · refine ⟨by simp, fun _ => ⟨by simp, by simp⟩, fun hw => absurd hw h1,
      fun hw => absurd hw h1⟩

/-- C5 witness: the unsendable-reply path at a concrete input. -/
theorem c5_witness :
    Ev.errCallNext (IscResult.failure 8) ∈
        (ns_client_error oracleReplyFail clientUdp .refused).snd ∧
      Ev.sendtoScheduled ∉ (ns_client_error oracleReplyFail clientUdp .refused).snd :=
  ⟨((c5_error_reply_fallback oracleReplyFail clientUdp .refused).2.2.2
      (by decide) (by decide)).1,
   ((c5_error_reply_fallback oracleReplyFail clientUdp .refused).2.2.2
      (by decide) (by decide)).2.2⟩

theorem sendFinish_mem_evs (o : Oracle) (c : Client) (r : IscResult) (evs : List Ev)
    (e : Ev) (h : e ∈ evs) : e ∈ (sendFinish o c r evs).snd := by
  unfold sendFinish
  split_ifs <;> simp [List.mem_append, h]

/-- The outcome the claim attributes to a failing render call with result
r: send finalized the request by invoking next with r, the acquired buffer
went back to the pool, and nothing was transmitted. -/
def renderFailedOutcome (o : Oracle) (c : Client) (r : IscResult) : Prop :=
  Ev.sendInvNext r ∈ (ns_client_send o c).snd ∧
  (ns_client_send o c).fst.freeBufs = c.freeBufs ∧
  Ev.sendtoScheduled ∉ (ns_client_send o c).snd

/-- C6: with a buffer acquired, send() renders the sections in the order
Question, Answer, Authority, Additional (the filtered trace equals the
schedule the claim describes); a NoSpace from the Additional section is
tolerated and rendering proceeds to render-end; any other render error
from a section finalizes the request with that error and releases the
buffer. -/
theorem c6_render_order (o : Oracle) (c : Client) (h : c.freeBufs ≠ 0) :
    ((ns_client_send o c).snd.filter (fun e => isRenderEv e) = specRenderEvents o)
    ∧ (o.renderBeginR = .success → o.renderQuestionR = .success →
       o.renderAnswerR = .success → o.renderAuthorityR = .success →
       o.renderAdditionalR = .nospace → Ev.renderEnd ∈ (ns_client_send o c).snd)
    ∧ (o.renderBeginR = .success → o.renderQuestionR ≠ .success →
        renderFailedOutcome o c o.renderQuestionR)
    ∧ (o.renderBeginR = .success → o.renderQuestionR = .success →
       o.renderAnswerR ≠ .success → renderFailedOutcome o c o.renderAnswerR)
    ∧ (o.renderBeginR = .success → o.renderQuestionR = .success →
       o.renderAnswerR = .success → o.renderAuthorityR ≠ .success →
       renderFailedOutcome o c o.renderAuthorityR)
    ∧ (o.renderBeginR = .success → o.renderQuestionR = .success →
       o.renderAnswerR = .success → o.renderAuthorityR = .success →
       o.renderAdditionalR ≠ .success → o.renderAdditionalR ≠ .nospace →
       renderFailedOutcome o c o.renderAdditionalR) := by
  have hsend : ns_client_send o c = sendRender o { c with freeBufs := c.freeBufs - 1 } := by
    unfold ns_client_send
    rw [if_neg h]
  have hfail : ∀ (r : IscResult) (evs : List Ev), r ≠ .success →
      Ev.sendtoScheduled ∉ evs →
      Ev.sendInvNext r ∈
          (sendFinish o { c with freeBufs := c.freeBufs - 1 } r evs).snd ∧
        (sendFinish o { c with freeBufs := c.freeBufs - 1 } r evs).fst.freeBufs =
          c.freeBufs ∧
        Ev.sendtoScheduled ∉
          (sendFinish o { c with freeBufs := c.freeBufs - 1 } r evs).snd := by
    intro r evs hr hno
    refine ⟨sendFinish_mem_next o _ r evs, ?_, sendFinish_no_sendto o _ r evs hno⟩
    rw [sendFinish_freeBufs_fail o _ r evs hr]
    simp
    omega
  refine ⟨?_, ?_, ?_, ?_, ?_, ?_⟩
  · rw [hsend]
    unfold sendRender
    split_ifs <;> rw [sendFinish_render_filter] <;>
      first
        | (simp_all [specRenderEvents, isRenderEv]; done)
        | (simp_all [specRenderEvents, isRenderEv]
           split_ifs <;> first | simp_all | tauto)
  · intro h1 h2 h3 h4 h5
    rw [hsend]
    unfold sendRender
    rw [if_neg (by simp [h1]), if_neg (by simp [h2]), if_neg (by simp [h3]),
      if_neg (by simp [h4]), if_neg (by simp [h5])]
    split_ifs <;> exact sendFinish_mem_evs o _ _ _ _ (by simp)
  · intro h1 h2
    unfold renderFailedOutcome
    rw [hsend]
    unfold sendRender
    rw [if_neg (by simp [h1]), if_pos h2]
    exact hfail o.renderQuestionR _ h2 (by simp)
  · intro h1 h2 h3
    unfold renderFailedOutcome
    rw [hsend]
    unfold sendRender
    rw [if_neg (by simp [h1]), if_neg (by simp [h2]), if_pos h3]
    exact hfail o.renderAnswerR _ h3 (by simp)
  · intro h1 h2 h3 h4
    unfold renderFailedOutcome
    rw [hsend]
    unfold sendRender
    rw [if_neg (by simp [h1]), if_neg (by simp [h2]), if_neg (by simp [h3]), if_pos h4]
    exact hfail o.renderAuthorityR _ h4 (by simp)
  · intro h1 h2 h3 h4 h5 h6
    unfold renderFailedOutcome
    rw [hsend]
    unfold sendRender
    rw [if_neg (by simp [h1]), if_neg (by simp [h2]), if_neg (by simp [h3]),
      if_neg (by simp [h4]), if_pos ⟨h5, h6⟩]
    exact hfail o.renderAdditionalR _ h5 (by simp)

/-- C6 witness: the render schedule for an all-success environment and the
failure outcome for a failing Answer section, at concrete inputs. -/
theorem c6_witness :
    (ns_client_send oracleOk clientUdp).snd.filter (fun e => isRenderEv e) =
        specRenderEvents oracleOk ∧
      renderFailedOutcome { oracleOk with renderAnswerR := .failure 3 } clientUdp
        (IscResult.failure 3) :=
  ⟨(c6_render_order oracleOk clientUdp (by decide)).1,
   (c6_render_order { oracleOk with renderAnswerR := .failure 3 } clientUdp
        (by decide)).2.2.2.1 (by decide) (by decide) (by decide)⟩

/-- C7: ns_clientmgr_destroy sets exiting; with an empty client list the
manager is destroyed synchronously, otherwise the call leaves it alive and
the client_destroy that takes nclients to zero while exiting destroys it;
and along every run of manager events a destroyed manager has no clients
and is exiting. -/
theorem c7_manager_destroy (evs : List MEvent) (m m2 : Manager) (id : Nat) :
    ((ns_clientmgr_destroy m).exiting = true)
    ∧ (m.clients = [] → (ns_clientmgr_destroy m).destroyed = true)
    ∧ (m.clients ≠ [] → (ns_clientmgr_destroy m).destroyed = m.destroyed)
    ∧ (m.exiting = true → m.nclients = 1 → (client_destroy m id).destroyed = true)
    ∧ (MgrInv m → mgrRun evs m = some m2 → m2.destroyed = true →
        m2.nclients = 0 ∧ m2.exiting = true) := by
  refine ⟨?_, ?_, ?_, ?_, ?_⟩
  · unfold ns_clientmgr_destroy clientmgr_destroy
    dsimp only
    split_ifs <;> rfl
  · intro h1
    unfold ns_clientmgr_destroy clientmgr_destroy
    dsimp only
    rw [if_pos (by simpa using h1)]
  · intro h1
    unfold ns_clientmgr_destroy
    dsimp only
    rw [if_neg (by simpa using h1)]
  · intro h1 h2
    unfold client_destroy clientmgr_destroy
    dsimp only
    rw [if_pos (by simp [h1, h2])]
  · intro hinv hrun hdes
    exact (mgrRun_inv evs m m2 hinv hrun).2 hdes

/-- A manager with two registered clients, not yet exiting. -/
def mgrTwo : Manager := ⟨false, false, 2, [1, 2]⟩

/-- The manager state after destroy and both client shutdowns. -/
def mgrDone : Manager := ⟨true, true, 0, []⟩

/-- Destroy the manager, then both client tasks finish. -/
def mgrTrace : List MEvent := [MEvent.mgrDestroy, MEvent.clientDone 1, MEvent.clientDone 2]

/-- C7 witness: the safety clause along a concrete run in which the second
client to finish destroys the manager. -/
theorem c7_witness : mgrDone.nclients = 0 ∧ mgrDone.exiting = true :=
  (c7_manager_destroy mgrTrace mgrTwo mgrDone 0).2.2.2.2 (by decide) (by decide)
    (by decide)

/-- C8: along every run of quiescent steps from a client satisfying the
invariant, a waiting client has a send outstanding; moreover client_senddone
leaves any client either out of the Waiting state or with a send still
outstanding. -/
theorem c8_waiting_invariant (evs : List CEvent) (o : Oracle) (c c2 : Client) :
    (WaitInv c → clientRun evs c = some c2 → c2.state = .waiting → 0 < c2.nsends)
    ∧ ((client_senddone o c).fst.state ≠ .waiting ∨
        0 < (client_senddone o c).fst.nsends) := by
  constructor
  · intro h hr
    exact clientRun_waitInv evs c c2 h hr
  · by_cases hw : (client_senddone o c).fst.state = .waiting
    · exact Or.inr (senddone_waitInv o c hw)
    · exact Or.inl hw

/-- Eight quiescent steps: three requests each finalized by a handler
calling send, filling nsends and draining the pool, then a fourth request
whose send finds the pool empty and waits. -/
def waitTrace : List CEvent :=
  [CEvent.request oracleOk, CEvent.finalizeSend oracleOk,
   CEvent.request oracleOk, CEvent.finalizeSend oracleOk,
   CEvent.request oracleOk, CEvent.finalizeSend oracleOk,
   CEvent.request oracleOk, CEvent.finalizeSend oracleOk]

/-- The client reached by waitTrace: waiting with three sends in flight. -/
def clientAfterWait : Client :=
  ⟨.waiting, false, 3, 0, true, false, true, false, ⟨false, .noerror⟩⟩

/-- C8 witness: the invariant evaluated at the end of a concrete run that
actually reaches the Waiting state. -/
theorem c8_witness : 0 < clientAfterWait.nsends :=
  (c8_waiting_invariant waitTrace oracleOk clientUdp clientAfterWait).1
    (by decide) (by decide) (by decide)

/-- C9: for n > 0, both creation calls return success exactly when at least
one client was created and registered; when none was, they return the error
of the first failed creation step. -/
theorem c9_creation_success_policy (o : MgrOracle) (n : Nat) (h : 0 < n) :
    (0 < (ns_clientmgr_addtodispatch o n).snd →
      (ns_clientmgr_addtodispatch o n).fst = .success)
    ∧ ((ns_clientmgr_addtodispatch o n).snd = 0 →
        (ns_clientmgr_addtodispatch o n).fst =
          (if o.createR 0 ≠ .success then o.createR 0 else o.addRequestR 0) ∧
        (ns_clientmgr_addtodispatch o n).fst ≠ .success)
    ∧ (0 < (ns_clientmgr_accepttcp o n).snd →
      (ns_clientmgr_accepttcp o n).fst = .success)
    ∧ ((ns_clientmgr_accepttcp o n).snd = 0 →
        (ns_clientmgr_accepttcp o n).fst = o.createR 0 ∧
        (ns_clientmgr_accepttcp o n).fst ≠ .success) := by
  refine ⟨?_, ?_, ?_, ?_⟩
  · intro hpos
    unfold ns_clientmgr_addtodispatch at hpos ⊢
    dsimp only at hpos ⊢
    rw [if_pos (by omega)]
  · intro hz
    unfold ns_clientmgr_addtodispatch at hz ⊢
    dsimp only at hz ⊢
    rw [if_neg (by omega)]
    exact dispatchLoop_zero o 0 n hz h
  · intro hpos
    unfold ns_clientmgr_accepttcp at hpos ⊢
    dsimp only at hpos ⊢
    rw [if_pos (by omega)]
  · intro hz
    unfold ns_clientmgr_accepttcp at hz ⊢
    dsimp only at hz ⊢
    rw [if_neg (by omega)]
    exact accepttcpLoop_zero o 0 n hz h

/-- Creation succeeds for the first client and fails for every later one. -/
def mgrOracleOneFail : MgrOracle :=
  ⟨fun i => if i = 0 then .success else .nomemory, fun _ => .success⟩

/-- C9 witness: one client out of two requested suffices for success. -/
theorem c9_witness :
    (ns_clientmgr_addtodispatch mgrOracleOneFail 2).fst = .success ∧
      (ns_clientmgr_accepttcp mgrOracleOneFail 2).fst = .success :=
  ⟨(c9_creation_success_policy mgrOracleOneFail 2 (by decide)).1 (by decide),
   (c9_creation_success_policy mgrOracleOneFail 2 (by decide)).2.2.1 (by decide)⟩

theorem client_accept_snd (o : Oracle) (c : Client) :
    (client_accept o c).snd = [] ∨ (client_accept o c).snd = [Ev.acceptRegistered] := by
  unfold client_accept
  split_ifs
  · exact Or.inl rfl
  · exact Or.inr rfl

theorem next_trace_head (o : Oracle) (c : Client) (r : IscResult) :
    Ev.nextRan r ∈ (ns_client_next o c r).snd := by
  simp only [ns_client_next, ns_client_next_f]
  split_ifs <;> simp

theorem client_accept_no_read (o : Oracle) (c : Client) :
    Ev.readRegistered ∉ (client_accept o c).snd := by
  unfold client_accept
  split_ifs <;> simp

theorem next_trace_no_read (o : Oracle) (c : Client) (r : IscResult) (h : r ≠ .success) :
    Ev.readRegistered ∉ (ns_client_next o c r).snd := by
  intro hm
  simp only [ns_client_next, ns_client_next_f] at hm
  split_ifs at hm <;>
    first
      | exact client_accept_no_read o _ hm
      | (rcases List.mem_cons.mp hm with h2 | h2
         · cases h2
         · exact client_accept_no_read o _ h2)
      | simp_all

/-- C10: after every call to client_read the client state is Reading; when
registering the read fails, ns_client_next has already run with that result
and no read is registered, yet the state is still overwritten to Reading;
when registration succeeds exactly the read registration is recorded. -/
theorem c10_read_always_reading (o : Oracle) (c : Client) :
    (client_read o c).fst.state = .reading
    ∧ (o.readmessageR ≠ .success →
        Ev.nextRan o.readmessageR ∈ (client_read o c).snd ∧
        Ev.readRegistered ∉ (client_read o c).snd)
    ∧ (o.readmessageR = .success → (client_read o c).snd = [Ev.readRegistered]) := by
  unfold client_read
  by_cases h : o.readmessageR ≠ .success
  · rw [if_pos h]
    dsimp only
    exact ⟨rfl,
      fun _ => ⟨next_trace_head o c o.readmessageR, next_trace_no_read o c _ h⟩,
      fun hs => absurd hs h⟩
  · rw [if_neg h]
    exact ⟨rfl, fun hne => absurd hne h, fun _ => rfl⟩

/-- C10 witness: a failing read registration at a concrete input. -/
theorem c10_witness :
    (client_read { oracleOk with readmessageR := .failure 5 } clientTcp).fst.state =
        ClientState.reading ∧
      Ev.nextRan (IscResult.failure 5) ∈
        (client_read { oracleOk with readmessageR := .failure 5 } clientTcp).snd :=
  ⟨(c10_read_always_reading { oracleOk with readmessageR := .failure 5 } clientTcp).1,
   ((c10_read_always_reading { oracleOk with readmessageR := .failure 5 } clientTcp).2.1
      (by decide)).1⟩

end NsClient
